import Mathlib

/-!
Verification development for the leagueDetect repository.

Shallow embedding conventions:
- Rust `f64` values are modelled as exact rationals (`ℚ`); all floating
  point expressions appearing in the claims are exact at this precision.
- `chrono::DateTime<Utc>` timestamps are modelled as `Int` (whole seconds,
  matching the granularity at which the source inspects durations via
  `num_seconds()`).
- `u32` / `usize` counters are modelled as `Nat`.
- File-system reads composed with serde parsing are modelled by the
  `DiskRead` input type below: the pure `load` functions take the outcome
  of the read/parse as an explicit argument.
- Calls to `Utc::now()` are modelled by an explicit `now : Int` argument.
-/

/-! ## analysis/champion_stats.rs -/

/-- Translation of `ChampionStats` (champion_stats.rs lines 3-9). -/
structure ChampionStats where
  name : String
  times_faced : Nat
  wins_against : Nat
  recency_score : ℚ
  deriving DecidableEq

/-- Translation of `ChampionStats::new` (champion_stats.rs lines 12-19). -/
def ChampionStats.new (name : String) : ChampionStats :=
  { name := name, times_faced := 0, wins_against := 0, recency_score := 0 }

/-- Translation of `ChampionStats::win_rate` (champion_stats.rs lines 21-27). -/
def ChampionStats.win_rate (s : ChampionStats) : ℚ :=
  if s.times_faced = 0 then 0 else (s.wins_against : ℚ) / (s.times_faced : ℚ)

/-- Translation of `ChampionStats::frequency` (champion_stats.rs lines 29-35). -/
def ChampionStats.frequency (s : ChampionStats) (total_games : Nat) : ℚ :=
  if total_games = 0 then 0 else ((s.times_faced : ℚ) / (total_games : ℚ)) * 100

/-- The `HashMap<String, ChampionStats>` backing a tracker namespace,
modelled extensionally as a partial map from champion name to stats. -/
abbrev StatsMap := String → Option ChampionStats

def StatsMap.empty : StatsMap := fun _ => none

/-- The body of `ChampionStatsTracker::add_champion_encounter`
(champion_stats.rs lines 49-64): look the name up (inserting a fresh
`ChampionStats::new` on first sight), then bump `times_faced`, bump
`wins_against` iff `won_against`, and add `recency_weight` to
`recency_score`. -/
def StatsMap.record (m : StatsMap) (champion_name : String) (won_against : Bool)
    (recency_weight : ℚ) : StatsMap :=
  fun n =>
    if n = champion_name then
      let entry := (m champion_name).getD (ChampionStats.new champion_name)
      some { entry with
        times_faced := entry.times_faced + 1,
        wins_against := if won_against then entry.wins_against + 1 else entry.wins_against,
        recency_score := entry.recency_score + recency_weight }
    else m n

/-- Reading a champion's accumulated stats, with the all-zero
`ChampionStats::new` view for a champion never encountered. -/
def StatsMap.getStat (m : StatsMap) (name : String) : ChampionStats :=
  (m name).getD (ChampionStats.new name)

/-- Translation of `ChampionStatsTracker` (champion_stats.rs lines 38-40),
extended with the ally namespace used by `main.rs` lines 270-277 and 335.

The field `ally_stats` and the ally operations are Modelled from the spec:
`main.rs` calls `tracker.add_ally_encounter` and `tracker.get_ally_stats`,
but their definitions are not among the provided sources; per the spec
(§4.1) they are "a second, independently-keyed instance of the same
structure (namespace)" maintained "using the identical algorithm". -/
structure ChampionStatsTracker where
  stats : StatsMap
  ally_stats : StatsMap

/-- Translation of `ChampionStatsTracker::new` (champion_stats.rs lines 43-47),
with the spec-modelled ally namespace starting empty as well. -/
def ChampionStatsTracker.new : ChampionStatsTracker :=
  { stats := StatsMap.empty, ally_stats := StatsMap.empty }

/-- Translation of `ChampionStatsTracker::add_champion_encounter`
(champion_stats.rs lines 49-64): updates only the opponent namespace. -/
def ChampionStatsTracker.add_champion_encounter (t : ChampionStatsTracker)
    (champion_name : String) (won_against : Bool) (recency_weight : ℚ) :
    ChampionStatsTracker :=
  { t with stats := t.stats.record champion_name won_against recency_weight }

/-- Modelled from the spec: `add_ally_encounter` is called by `main.rs`
line 272 but its definition is missing from the provided sources; per spec
§4.1 it applies the identical record algorithm to the independently-keyed
ally namespace, leaving the opponent namespace untouched. -/
def ChampionStatsTracker.add_ally_encounter (t : ChampionStatsTracker)
    (champion_name : String) (won : Bool) (recency_weight : ℚ) :
    ChampionStatsTracker :=
  { t with ally_stats := t.ally_stats.record champion_name won recency_weight }

/-- One call to a tracker record operation, as fed by the loop in
`main.rs` lines 261-278. -/
structure Encounter where
  name : String
  won : Bool
  weight : ℚ

/-- Folding a whole sequence of encounters into one tracker namespace. -/
def recordAll (m : StatsMap) (es : List Encounter) : StatsMap :=
  es.foldl (fun acc e => acc.record e.name e.won e.weight) m

/-! ## error.rs -/

/-- Translation of `AppError` (error.rs lines 4-30). -/
inductive AppError where
  | ApiError : String → AppError
  | RateLimited : AppError
  | InvalidRiotId : AppError
  | PlayerNotFound : String → AppError
  | NoRankedGames : AppError
  | ConfigError : String → AppError
  | HttpError : String → AppError
  | JsonError : String → AppError
  deriving DecidableEq

/-- Outcome of `fs::read_to_string` composed with `serde_json::from_str`,
the I/O boundary of the two `load` functions: `absent` models the read
itself failing (file missing or unreadable on disk, the `Err(_)` arm);
`malformed` models a successful read whose content fails to parse;
`parsed` models a successful read and parse of a value. -/
inductive DiskRead (α : Type) where
  | absent : DiskRead α
  | malformed : DiskRead α
  | parsed : α → DiskRead α

/-! ## cache.rs -/

/-- Translation of `CachedMatch` (cache.rs lines 8-15). -/
structure CachedMatch where
  id : String
  champion : String
  won : Bool
  enemies : List String
  timestamp : Int
  deriving DecidableEq

/-- Translation of `CachedAccount` (cache.rs lines 17-23). -/
structure CachedAccount where
  puuid : String
  summoner_name : String
  summoner_level : Int
  cached_at : Int
  deriving DecidableEq

/-- Translation of `MatchCache` (cache.rs lines 25-32). -/
structure MatchCache where
  player : String
  region : String
  last_updated : Int
  matches' : List CachedMatch
  account : Option CachedAccount
  deriving DecidableEq

/-- Translation of `MatchCache::new` (cache.rs lines 35-43). -/
def MatchCache.new (player region : String) (now : Int) : MatchCache :=
  { player := player, region := region, last_updated := now,
    matches' := [], account := none }

/-- Translation of `MatchCache::load` (cache.rs lines 68-82): a read
failure (file absent) yields `Ok(MatchCache::new(player, "na1"))`; content
that fails to parse is mapped to `Err(AppError::JsonError(..))`; parsed
content is returned as is. -/
def MatchCache.load (player : String) (now : Int) (disk : DiskRead MatchCache) :
    Except AppError MatchCache :=
  match disk with
  | .parsed c => .ok c
  | .malformed => .error (AppError.JsonError "Failed to parse cache")
  | .absent => .ok (MatchCache.new player "na1" now)

/-- The comparator closure of cache.rs line 109,
`|a, b| b.timestamp.cmp(&a.timestamp)`, rendered as the Boolean relation
"a may precede b", i.e. the comparison is not `Greater`. -/
def tsDescLe (a b : CachedMatch) : Bool := decide (b.timestamp ≤ a.timestamp)

/-- Translation of `MatchCache::add_matches` (cache.rs lines 97-112): the
set of ids already cached is computed once, incoming matches whose id is
in that set are skipped and the rest are pushed in order, then the whole
vector is stably sorted descending by timestamp (Rust `sort_by` is a
stable merge sort) and `last_updated` is set to now. -/
def MatchCache.add_matches (c : MatchCache) (new_matches : List CachedMatch)
    (now : Int) : MatchCache :=
  let existing_ids := c.matches'.map (fun m => m.id)
  let pushed := new_matches.filter (fun m => ! existing_ids.contains m.id)
  { c with
    matches' := (c.matches' ++ pushed).mergeSort tsDescLe,
    last_updated := now }

/-- Translation of `MatchCache::get_recent_matches` (cache.rs lines 114-119). -/
def MatchCache.get_recent_matches (c : MatchCache) (count : Nat) : List CachedMatch :=
  c.matches'.take count

/-! ## rate_limit.rs -/

/-- Translation of `MAX_REQUESTS_PER_2MIN` (rate_limit.rs line 10). -/
def MAX_REQUESTS_PER_2MIN : Nat := 100

/-- Translation of `MAX_REQUESTS_PER_SEC` (rate_limit.rs line 11). -/
def MAX_REQUESTS_PER_SEC : Nat := 20

/-- Translation of `RequestLog` (rate_limit.rs lines 13-21). -/
structure RequestLog where
  player : String
  requests_per_2min : Nat
  requests_per_sec : Nat
  last_request : Int
  window_2min_start : Int
  window_1sec_start : Int
  deriving DecidableEq

/-- Translation of `RequestLog::new` (rate_limit.rs lines 24-34). -/
def RequestLog.new (player : String) (now : Int) : RequestLog :=
  { player := player, requests_per_2min := 0, requests_per_sec := 0,
    last_request := now, window_2min_start := now, window_1sec_start := now }

/-- The lazy window-reset block inside `RequestLog::load`
(rate_limit.rs lines 54-67): each window whose elapsed seconds strictly
exceed its duration is reset to count 0 with its start advanced to now;
the two ifs run in sequence on the same value. -/
def RequestLog.resetWindows (log : RequestLog) (now : Int) : RequestLog :=
  let log1 :=
    if now - log.window_2min_start > 120 then
      { log with requests_per_2min := 0, window_2min_start := now }
    else log
  if now - log1.window_1sec_start > 1 then
    { log1 with requests_per_sec := 0, window_1sec_start := now }
  else log1

/-- Translation of `RequestLog::load` (rate_limit.rs lines 46-73): a read
failure yields `Ok(RequestLog::new(player))`; unparsable content is mapped
to `Err(AppError::JsonError(..))`; parsed content has its expired windows
lazily reset. -/
def RequestLog.load (player : String) (now : Int) (disk : DiskRead RequestLog) :
    Except AppError RequestLog :=
  match disk with
  | .parsed log => .ok (log.resetWindows now)
  | .malformed => .error (AppError.JsonError "Failed to parse rate limit log")
  | .absent => .ok (RequestLog.new player now)

/-- Translation of `RequestLog::can_make_request` (rate_limit.rs lines 86-88). -/
def RequestLog.can_make_request (log : RequestLog) : Bool :=
  decide (log.requests_per_2min < MAX_REQUESTS_PER_2MIN) &&
    decide (log.requests_per_sec < MAX_REQUESTS_PER_SEC)

/-- Translation of `RequestLog::record_request` (rate_limit.rs lines 90-94). -/
def RequestLog.record_request (log : RequestLog) (now : Int) : RequestLog :=
  { log with
    requests_per_2min := log.requests_per_2min + 1,
    requests_per_sec := log.requests_per_sec + 1,
    last_request := now }

/-- Translation of `RequestLog::get_remaining` (rate_limit.rs lines 96-101);
the `u32` subtractions become `Nat` subtractions, which truncate exactly
when the Rust subtraction would underflow. -/
def RequestLog.get_remaining (log : RequestLog) : Nat × Nat :=
  (MAX_REQUESTS_PER_2MIN - log.requests_per_2min,
   MAX_REQUESTS_PER_SEC - log.requests_per_sec)

/-- Iterated `record_request` at the given sequence of times. -/
def recordAllAt (log : RequestLog) (times : List Int) : RequestLog :=
  times.foldl RequestLog.record_request log

/-! ## main.rs -/

/-- Translation of the budget check at the top of `run` (main.rs lines
80-87): the result is `true` when the run proceeds to make API requests
and `false` when it aborts with a rate-limit error. The first branch
(`!refresh && can_make_request`) is an empty Ok-comment branch, the second
(`refresh && !can_make_request`) returns the error, and every remaining
case falls through both branches so the run continues. -/
def budgetGate (refresh can_make : Bool) : Bool :=
  if !refresh && can_make then true
  else if refresh && !can_make then false
  else true

/-- One in-memory budget operation of a run: `record` is
`record_request()` at a given time, `reload` is a `load()` of the state
just saved, i.e. the lazy window reset applied at a given time. -/
inductive BudgetOp where
  | record : Int → BudgetOp
  | reload : Int → BudgetOp

def budgetStep (log : RequestLog) : BudgetOp → RequestLog
  | .record now => log.record_request now
  | .reload now => log.resetWindows now

def runBudgetOps (log : RequestLog) (ops : List BudgetOp) : RequestLog :=
  ops.foldl budgetStep log

/-- The discipline the spec imposes on callers: every `record_request` in
the sequence is issued in a state where `can_make_request()` is true. -/
def guardedOps : RequestLog → List BudgetOp → Bool
  | _, [] => true
  | log, op :: rest =>
    (match op with
     | .record _ => log.can_make_request
     | .reload _ => true) && guardedOps (budgetStep log op) rest

/-! ## analysis/recommender.rs -/

/-- Translation of `BanRecommendation` (recommender.rs lines 3-10). -/
structure BanRecommendation where
  champion_name : String
  score : ℚ
  frequency : ℚ
  win_rate : ℚ
  times_faced : Nat
  deriving DecidableEq

/-- Translation of `AllyAnalysis` (recommender.rs lines 12-18). -/
structure AllyAnalysis where
  champion_name : String
  times_played_together : Nat
  wins_together : Nat
  win_rate : ℚ
  deriving DecidableEq

/-- One step of the fold of recommender.rs lines 87-90,
`.fold(f64::NEG_INFINITY, f64::max)`: the seed `NEG_INFINITY` is modelled
as `none`, and `f64::max(NEG_INFINITY, x) = x` for every finite `x`. -/
def foldMax (acc : Option ℚ) (x : ℚ) : Option ℚ :=
  match acc with
  | none => some x
  | some a => some (max a x)

/-- The `max_recency` computation of recommender.rs lines 87-90: `none`
is the `NEG_INFINITY` sentinel reached only on an empty stat list. -/
def maxRecencyOf (stats : List ChampionStats) : Option ℚ :=
  stats.foldl (fun acc s => foldMax acc s.recency_score) none

/-- Translation of `BanRecommender::calculate_score` (recommender.rs lines
66-80), for a finite `max_recency` argument. -/
def BanRecommender.calculate_score (stats : ChampionStats) (total_games : Nat)
    (max_recency : ℚ) : ℚ :=
  let frequency := stats.frequency total_games / 100
  let win_rate := stats.win_rate
  let recency_normalized :=
    if 0 < max_recency then stats.recency_score / max_recency else 0
  0.4 * frequency + 0.5 * (1 - win_rate) + 0.1 * recency_normalized

/-- The same score with the possibly-sentinel `max_recency` the fold
produces: `NEG_INFINITY > 0.0` is false in the source, so the sentinel
takes the `else 0` branch of the recency test. -/
def BanRecommender.scoreWithMax (stats : ChampionStats) (total_games : Nat)
    (max_recency : Option ℚ) : ℚ :=
  let recency_normalized :=
    match max_recency with
    | some m => if 0 < m then stats.recency_score / m else 0
    | none => 0
  0.4 * (stats.frequency total_games / 100) + 0.5 * (1 - stats.win_rate) +
    0.1 * recency_normalized

/-- The per-stat construction of recommender.rs lines 92-106. -/
def BanRecommender.mkRecommendation (total_games : Nat) (m : Option ℚ)
    (s : ChampionStats) : BanRecommendation :=
  { champion_name := s.name,
    score := BanRecommender.scoreWithMax s total_games m,
    frequency := s.frequency total_games,
    win_rate := s.win_rate,
    times_faced := s.times_faced }

/-- The comparator closure of recommender.rs line 108,
`|a, b| b.score.partial_cmp(&a.score).unwrap_or(Equal)`, rendered as the
Boolean relation "a may precede b": over rationals the comparison is
never `None`, and it is not `Greater` exactly when `b.score ≤ a.score`. -/
def scoreDescLe (a b : BanRecommendation) : Bool := decide (b.score ≤ a.score)

/-- Translation of `BanRecommender::get_recommendations` (recommender.rs
lines 82-112): compute the (possibly sentinel) batch maximum recency,
score every stat against it, stably sort descending by score, and
truncate to `top_n`. -/
def BanRecommender.get_recommendations (stats : List ChampionStats)
    (total_games top_n : Nat) : List BanRecommendation :=
  let m := maxRecencyOf stats
  (((stats.map (BanRecommender.mkRecommendation total_games m)).mergeSort
      scoreDescLe).take top_n)

/-! ## Claim theorems -/

/-- C1 (amended): for every player key, when the durable file is absent or
the file itself cannot be read from disk, `MatchCache::load` returns a
fresh empty cache with default region "na1" and `RequestLog::load` returns
a fresh zeroed budget, instead of failing. (Readable-but-unparsable
content, by contrast, surfaces a `JsonError`.) -/
theorem load_absent_yields_fresh_state (player : String) (now : Int) :
    MatchCache.load player now DiskRead.absent =
      Except.ok (MatchCache.new player "na1" now) ∧
    RequestLog.load player now DiskRead.absent =
      Except.ok (RequestLog.new player now) :=
  ⟨rfl, rfl⟩

/-- C1 witness: the amended statement at a concrete player key. -/
theorem load_absent_yields_fresh_state_witness :
    MatchCache.load "Faker#KR1" 0 DiskRead.absent =
      Except.ok (MatchCache.new "Faker#KR1" "na1" 0) ∧
    RequestLog.load "Faker#KR1" 0 DiskRead.absent =
      Except.ok (RequestLog.new "Faker#KR1" 0) :=
  load_absent_yields_fresh_state "Faker#KR1" 0

/-- C1 counterexample: when the durable file is read successfully but its
content is unreadable (fails to parse), both loads surface a fatal
`JsonError` instead of returning a fresh empty state. -/
theorem load_malformed_surfaces_error :
    MatchCache.load "Faker#KR1" 0 DiskRead.malformed =
      Except.error (AppError.JsonError "Failed to parse cache") ∧
    MatchCache.load "Faker#KR1" 0 DiskRead.malformed ≠
      Except.ok (MatchCache.new "Faker#KR1" "na1" 0) ∧
    RequestLog.load "Faker#KR1" 0 DiskRead.malformed =
      Except.error (AppError.JsonError "Failed to parse rate limit log") ∧
    RequestLog.load "Faker#KR1" 0 DiskRead.malformed ≠
      Except.ok (RequestLog.new "Faker#KR1" 0) :=
  ⟨rfl, fun h => Except.noConfusion h, rfl, fun h => Except.noConfusion h⟩

/-- C2: the ally namespace is independently keyed and runs the identical
record algorithm: recording an ally encounter leaves the opponent
namespace untouched (every opponent `ChampionStat` unchanged), recording
an opponent encounter leaves the ally namespace untouched, and both
operations apply the same `StatsMap.record` algorithm to their own
namespace. -/
theorem ally_and_opponent_namespaces_independent (t : ChampionStatsTracker)
    (name : String) (won : Bool) (w : ℚ) :
    (t.add_ally_encounter name won w).stats = t.stats ∧
    (t.add_champion_encounter name won w).ally_stats = t.ally_stats ∧
    (t.add_ally_encounter name won w).ally_stats =
      t.ally_stats.record name won w ∧
    (t.add_champion_encounter name won w).stats =
      t.stats.record name won w :=
  ⟨rfl, rfl, rfl, rfl⟩

/-- A persisted budget whose 2-minute window is exhausted (100 requests
recorded, window started at time 0). -/
def exhaustedLog : RequestLog :=
  { player := "Faker#KR1", requests_per_2min := 100, requests_per_sec := 0,
    last_request := 0, window_2min_start := 0, window_1sec_start := 0 }

/-- C3 exhibit: loading `exhaustedLog` one second into its window keeps it
exhausted (`can_make_request()` is false), yet with `refresh = false` the
budget check at the top of `run` (main.rs lines 80-87) matches neither
branch and falls through, so the run proceeds to attempt outbound API
requests while `can_make_request()` is false. -/
theorem budget_gate_falls_through_when_exhausted :
    RequestLog.load "Faker#KR1" 1 (DiskRead.parsed exhaustedLog) =
      Except.ok exhaustedLog ∧
    exhaustedLog.can_make_request = false ∧
    budgetGate false exhaustedLog.can_make_request = true :=
  ⟨rfl, rfl, rfl⟩

/-- C5: `calculate_score` equals
`0.4·frequency_fraction + 0.5·(1 − win_rate) + 0.1·recency_fraction`,
where the frequency fraction is `times_faced / total_games` (0 when
`total_games = 0`) and the recency fraction is
`recency_score / max_recency` (0 when `max_recency ≤ 0`); and the concrete
stat (times_faced 5, wins_against 1, recency_score 0.8) scored with 20
total games and max recency 1.0 yields 0.58. -/
theorem calculate_score_spec :
    (∀ (s : ChampionStats) (total_games : Nat) (max_recency : ℚ),
      BanRecommender.calculate_score s total_games max_recency =
        0.4 * (if total_games = 0 then 0 else (s.times_faced : ℚ) / total_games)
        + 0.5 * (1 - s.win_rate)
        + 0.1 * (if 0 < max_recency then s.recency_score / max_recency else 0)) ∧
    BanRecommender.calculate_score ⟨"Zed", 5, 1, 0.8⟩ 20 1 = 0.58 := by
  constructor
  · intro s total m
    unfold BanRecommender.calculate_score ChampionStats.frequency
    by_cases h : total = 0
    · simp [h]
    · simp only [h, if_false]
      ring
  · norm_num [BanRecommender.calculate_score, ChampionStats.frequency,
      ChampionStats.win_rate]

/-- Helper: iterated `record_request` adds the number of calls to both
window counters. -/
theorem recordAllAt_counts (ts : List Int) :
    ∀ (log : RequestLog),
      (recordAllAt log ts).requests_per_2min
        = log.requests_per_2min + ts.length ∧
      (recordAllAt log ts).requests_per_sec
        = log.requests_per_sec + ts.length := by
  induction ts with
  | nil => intro log; simp [recordAllAt]
  | cons t ts ih =>
    intro log
    have h := ih (log.record_request t)
    simp only [recordAllAt, List.foldl_cons] at h ⊢
    constructor
    · rw [h.1]; simp [RequestLog.record_request]; omega
    · rw [h.2]; simp [RequestLog.record_request]; omega

/-- C4: counter exhaustion closes the gate, further records keep it
closed, a load within a window preserves that window's count and start
(so the gate stays closed until the window's elapsed time exceeds its
duration), and a load after the window's elapsed time exceeds its
duration resets that window's count to 0 and its start to now; `load` on
persisted state is exactly this lazy reset. -/
theorem rate_limit_window_exhaustion_and_reset (p : String) (t0 now : Int)
    (ts : List Int) (log : RequestLog) :
    (MAX_REQUESTS_PER_SEC ≤ ts.length →
      (recordAllAt (RequestLog.new p t0) ts).can_make_request = false) ∧
    (MAX_REQUESTS_PER_2MIN ≤ log.requests_per_2min →
      log.can_make_request = false) ∧
    (MAX_REQUESTS_PER_SEC ≤ log.requests_per_sec →
      log.can_make_request = false) ∧
    (log.can_make_request = false →
      (recordAllAt log ts).can_make_request = false) ∧
    (now - log.window_2min_start ≤ 120 →
      (log.resetWindows now).requests_per_2min = log.requests_per_2min ∧
      (log.resetWindows now).window_2min_start = log.window_2min_start) ∧
    (now - log.window_1sec_start ≤ 1 →
      (log.resetWindows now).requests_per_sec = log.requests_per_sec ∧
      (log.resetWindows now).window_1sec_start = log.window_1sec_start) ∧
    (120 < now - log.window_2min_start →
      (log.resetWindows now).requests_per_2min = 0 ∧
      (log.resetWindows now).window_2min_start = now) ∧
    (1 < now - log.window_1sec_start →
      (log.resetWindows now).requests_per_sec = 0 ∧
      (log.resetWindows now).window_1sec_start = now) ∧
    RequestLog.load p now (DiskRead.parsed log) =
      Except.ok (log.resetWindows now) := by
  have hc := recordAllAt_counts ts (RequestLog.new p t0)
  have hc' := recordAllAt_counts ts log
  refine ⟨?_, ?_, ?_, ?_, ?_, ?_, ?_, ?_, rfl⟩
  · intro hlen
    simp only [RequestLog.can_make_request, Bool.and_eq_false_iff,
      decide_eq_false_iff_not, Nat.not_lt]
    right
    rw [hc.2]
    simp only [RequestLog.new]
    omega
  · intro h
    simp only [RequestLog.can_make_request, Bool.and_eq_false_iff,
      decide_eq_false_iff_not, Nat.not_lt]
    exact Or.inl h
  · intro h
    simp only [RequestLog.can_make_request, Bool.and_eq_false_iff,
      decide_eq_false_iff_not, Nat.not_lt]
    exact Or.inr h
  · intro h
    simp only [RequestLog.can_make_request, Bool.and_eq_false_iff,
      decide_eq_false_iff_not, Nat.not_lt] at h ⊢
    rcases h with h | h
    · exact Or.inl (by rw [hc'.1]; omega)
    · exact Or.inr (by rw [hc'.2]; omega)
  · intro h
    have h1 : ¬ (now - log.window_2min_start > 120) := by omega
    by_cases h2 : now - log.window_1sec_start > 1 <;>
      simp [RequestLog.resetWindows, h1, h2]
  · intro h
    have h2 : ¬ (now - log.window_1sec_start > 1) := by omega
    by_cases h1 : now - log.window_2min_start > 120 <;>
      simp [RequestLog.resetWindows, h1, h2]
  · intro h
    have h1 : now - log.window_2min_start > 120 := by omega
    by_cases h2 : now - log.window_1sec_start > 1 <;>
      simp [RequestLog.resetWindows, h1, h2]
  · intro h
    have h2 : now - log.window_1sec_start > 1 := by omega
    by_cases h1 : now - log.window_2min_start > 120 <;>
      simp [RequestLog.resetWindows, h1, h2]

/-- C4 witness: 20 recorded requests exhaust a fresh budget; a reloaded
exhausted 2-minute window keeps its count at elapsed 120 seconds and is
reset to 0 with its start moved to now at elapsed 130 seconds. -/
theorem rate_limit_window_exhaustion_and_reset_witness :
    (recordAllAt (RequestLog.new "Faker#KR1" 0)
        (List.replicate 20 (0 : Int))).can_make_request = false ∧
    ((RequestLog.mk "Faker#KR1" 100 0 0 0 0).resetWindows 120).requests_per_2min
      = 100 ∧
    ((RequestLog.mk "Faker#KR1" 100 0 0 0 0).resetWindows 130).requests_per_2min
      = 0 ∧
    ((RequestLog.mk "Faker#KR1" 100 0 0 0 0).resetWindows 130).window_2min_start
      = 130 :=
  ⟨(rate_limit_window_exhaustion_and_reset "Faker#KR1" 0 0
      (List.replicate 20 (0 : Int)) (RequestLog.new "Faker#KR1" 0)).1
      (by decide),
   ((rate_limit_window_exhaustion_and_reset "Faker#KR1" 0 120 []
      (RequestLog.mk "Faker#KR1" 100 0 0 0 0)).2.2.2.2.1 (by decide)).1,
   ((rate_limit_window_exhaustion_and_reset "Faker#KR1" 0 130 []
      (RequestLog.mk "Faker#KR1" 100 0 0 0 0)).2.2.2.2.2.2.1 (by decide)).1,
   ((rate_limit_window_exhaustion_and_reset "Faker#KR1" 0 130 []
      (RequestLog.mk "Faker#KR1" 100 0 0 0 0)).2.2.2.2.2.2.1 (by decide)).2⟩

/-- Helper: the lazy window reset never increases either counter. -/
theorem resetWindows_counts_le (log : RequestLog) (now : Int) :
    (log.resetWindows now).requests_per_2min ≤ log.requests_per_2min ∧
    (log.resetWindows now).requests_per_sec ≤ log.requests_per_sec := by
  by_cases h1 : now - log.window_2min_start > 120 <;>
    by_cases h2 : now - log.window_1sec_start > 1 <;>
      simp [RequestLog.resetWindows, h1, h2]

/-- Helper: budgets whose counters are within their maxima stay within
their maxima along any guarded operation sequence. -/
theorem guarded_ops_preserve_bounds (ops : List BudgetOp) :
    ∀ (log : RequestLog),
      log.requests_per_2min ≤ MAX_REQUESTS_PER_2MIN →
      log.requests_per_sec ≤ MAX_REQUESTS_PER_SEC →
      guardedOps log ops = true →
      (runBudgetOps log ops).requests_per_2min ≤ MAX_REQUESTS_PER_2MIN ∧
      (runBudgetOps log ops).requests_per_sec ≤ MAX_REQUESTS_PER_SEC := by
  induction ops with
  | nil => intro log h2 hs _; exact ⟨h2, hs⟩
  | cons op rest ih =>
    intro log h2 hs hg
    simp only [guardedOps, Bool.and_eq_true] at hg
    simp only [runBudgetOps, List.foldl_cons]
    cases op with
    | record now =>
      have hcan : log.requests_per_2min < MAX_REQUESTS_PER_2MIN ∧
          log.requests_per_sec < MAX_REQUESTS_PER_SEC := by
        have := hg.1
        simpa [RequestLog.can_make_request] using this
      have := ih (budgetStep log (BudgetOp.record now))
        (by simp [budgetStep, RequestLog.record_request]; omega)
        (by simp [budgetStep, RequestLog.record_request]; omega)
        hg.2
      simpa [runBudgetOps] using this
    | reload now =>
      have hle := resetWindows_counts_le log now
      have := ih (budgetStep log (BudgetOp.reload now))
        (by simp only [budgetStep]; omega)
        (by simp only [budgetStep]; omega)
        hg.2
      simpa [runBudgetOps] using this

/-- C10: along any sequence of in-memory budget operations in which
`record_request()` is only issued in states where `can_make_request()` is
true, both window counters stay at or below their maxima in every reached
final state, so the `u32` subtractions of `get_remaining()` never
underflow (the Nat subtraction plus the counter recovers the maximum
exactly). -/
theorem guarded_budget_counts_bounded (p : String) (t0 : Int)
    (ops : List BudgetOp)
    (h : guardedOps (RequestLog.new p t0) ops = true) :
    (runBudgetOps (RequestLog.new p t0) ops).requests_per_2min
      ≤ MAX_REQUESTS_PER_2MIN ∧
    (runBudgetOps (RequestLog.new p t0) ops).requests_per_sec
      ≤ MAX_REQUESTS_PER_SEC ∧
    (runBudgetOps (RequestLog.new p t0) ops).get_remaining.1
      + (runBudgetOps (RequestLog.new p t0) ops).requests_per_2min
      = MAX_REQUESTS_PER_2MIN ∧
    (runBudgetOps (RequestLog.new p t0) ops).get_remaining.2
      + (runBudgetOps (RequestLog.new p t0) ops).requests_per_sec
      = MAX_REQUESTS_PER_SEC := by
  have hb := guarded_ops_preserve_bounds ops (RequestLog.new p t0)
    (by simp [RequestLog.new]) (by simp [RequestLog.new]) h
  refine ⟨hb.1, hb.2, ?_, ?_⟩
  · simp only [RequestLog.get_remaining]
    omega
  · simp only [RequestLog.get_remaining]
    omega

/-- C10 witness: a concrete guarded sequence (one permitted request, a
reload 130 seconds later, another permitted request). -/
theorem guarded_budget_counts_bounded_witness :
    RequestLog.requests_per_2min (runBudgetOps (RequestLog.new "Faker#KR1" 0)
        [BudgetOp.record 1, BudgetOp.reload 130, BudgetOp.record 131])
      ≤ MAX_REQUESTS_PER_2MIN ∧
    RequestLog.requests_per_sec (runBudgetOps (RequestLog.new "Faker#KR1" 0)
        [BudgetOp.record 1, BudgetOp.reload 130, BudgetOp.record 131])
      ≤ MAX_REQUESTS_PER_SEC ∧
    (RequestLog.get_remaining (runBudgetOps (RequestLog.new "Faker#KR1" 0)
        [BudgetOp.record 1, BudgetOp.reload 130, BudgetOp.record 131])).1
      + RequestLog.requests_per_2min (runBudgetOps (RequestLog.new "Faker#KR1" 0)
        [BudgetOp.record 1, BudgetOp.reload 130, BudgetOp.record 131])
      = MAX_REQUESTS_PER_2MIN ∧
    (RequestLog.get_remaining (runBudgetOps (RequestLog.new "Faker#KR1" 0)
        [BudgetOp.record 1, BudgetOp.reload 130, BudgetOp.record 131])).2
      + RequestLog.requests_per_sec (runBudgetOps (RequestLog.new "Faker#KR1" 0)
        [BudgetOp.record 1, BudgetOp.reload 130, BudgetOp.record 131])
      = MAX_REQUESTS_PER_SEC :=
  guarded_budget_counts_bounded "Faker#KR1" 0
    [BudgetOp.record 1, BudgetOp.reload 130, BudgetOp.record 131] (by decide)

/-- Helper: folding a sequence of encounters into a namespace adds, for
each champion name, the number of matching encounters to `times_faced`
and the number of matching won encounters to `wins_against`. -/
theorem recordAll_counts (es : List Encounter) :
    ∀ (m : StatsMap) (name : String),
      ((recordAll m es).getStat name).times_faced
        = (m.getStat name).times_faced
          + es.countP (fun e => decide (e.name = name)) ∧
      ((recordAll m es).getStat name).wins_against
        = (m.getStat name).wins_against
          + es.countP (fun e => decide (e.name = name) && e.won) := by
  induction es with
  | nil => intro m name; simp [recordAll]
  | cons e es ih =>
    intro m name
    have h := ih (m.record e.name e.won e.weight) name
    simp only [recordAll, List.foldl_cons] at h ⊢
    by_cases hn : name = e.name
    · simp only [hn] at h ⊢
      have e1 : ((m.record e.name e.won e.weight).getStat e.name).times_faced
          = (m.getStat e.name).times_faced + 1 := by
        simp [StatsMap.getStat, StatsMap.record]
      have e2 : ((m.record e.name e.won e.weight).getStat e.name).wins_against
          = (m.getStat e.name).wins_against + (if e.won then 1 else 0) := by
        cases hw : e.won <;> simp [StatsMap.getStat, StatsMap.record, hw]
      rw [List.countP_cons, List.countP_cons]
      constructor
      · rw [h.1, e1]; simp; omega
      · rw [h.2, e2]; cases hw : e.won <;> (simp [hw]; try omega)
    · have e0 : (m.record e.name e.won e.weight).getStat name
          = m.getStat name := by
        simp [StatsMap.getStat, StatsMap.record, hn]
      rw [List.countP_cons, List.countP_cons]
      have hne : (decide (e.name = name)) = false := by
        simp; intro hcontra; exact hn hcontra.symm
      constructor
      · rw [h.1, e0]; simp [hne]
      · rw [h.2, e0]; simp [hne]

/-- C8: for every sequence of encounters recorded into a fresh tracker
namespace, each champion's `times_faced` equals the number of encounters
recorded under that name, `wins_against` equals the number of those that
were won (hence `wins_against ≤ times_faced`), and `win_rate()` is 0 when
`times_faced = 0` and exactly `wins_against / times_faced` otherwise. -/
theorem tracker_counts_correct (es : List Encounter) (name : String) :
    ((recordAll StatsMap.empty es).getStat name).times_faced
      = es.countP (fun e => decide (e.name = name)) ∧
    ((recordAll StatsMap.empty es).getStat name).wins_against
      = es.countP (fun e => decide (e.name = name) && e.won) ∧
    ((recordAll StatsMap.empty es).getStat name).wins_against
      ≤ ((recordAll StatsMap.empty es).getStat name).times_faced ∧
    ((recordAll StatsMap.empty es).getStat name).win_rate
      = (if ((recordAll StatsMap.empty es).getStat name).times_faced = 0 then 0
         else (((recordAll StatsMap.empty es).getStat name).wins_against : ℚ)
           / (((recordAll StatsMap.empty es).getStat name).times_faced : ℚ)) := by
  have h := recordAll_counts es StatsMap.empty name
  have hbase : StatsMap.empty.getStat name = ChampionStats.new name := rfl
  rw [hbase] at h
  have h1 : ((recordAll StatsMap.empty es).getStat name).times_faced
      = es.countP (fun e => decide (e.name = name)) := by
    rw [h.1]; simp [ChampionStats.new]
  have h2 : ((recordAll StatsMap.empty es).getStat name).wins_against
      = es.countP (fun e => decide (e.name = name) && e.won) := by
    rw [h.2]; simp [ChampionStats.new]
  refine ⟨h1, h2, ?_, rfl⟩
  rw [h1, h2]
  exact List.countP_mono_left fun e _ hw => by
    simp only [Bool.and_eq_true] at hw
    exact hw.1

/-- Helper: the timestamp comparator is transitive. -/
theorem tsDescLe_trans : ∀ a b c : CachedMatch,
    tsDescLe a b = true → tsDescLe b c = true → tsDescLe a c = true := by
  intro a b c hab hbc
  simp only [tsDescLe, decide_eq_true_eq] at hab hbc ⊢
  omega

/-- Helper: the timestamp comparator is total. -/
theorem tsDescLe_total : ∀ a b : CachedMatch,
    tsDescLe a b || tsDescLe b a := by
  intro a b
  simp only [tsDescLe, Bool.or_eq_true, decide_eq_true_eq]
  omega

/-- Helper: the matches field produced by `add_matches`, spelled out. -/
theorem add_matches_matches (c : MatchCache) (batch : List CachedMatch)
    (t : Int) :
    (c.add_matches batch t).matches'
      = List.mergeSort
          (c.matches' ++ batch.filter
            (fun m => ! (c.matches'.map (fun m => m.id)).contains m.id))
          tsDescLe := rfl

/-- Helper: the match list is Pairwise ordered by the comparator after
any `add_matches`. -/
theorem add_matches_sorted_bool (c : MatchCache) (batch : List CachedMatch)
    (t : Int) :
    (c.add_matches batch t).matches'.Pairwise (fun a b => tsDescLe a b = true) := by
  rw [add_matches_matches]
  exact List.sorted_mergeSort tsDescLe_trans tsDescLe_total _

/-- Helper: after `add_matches`, the id of every batch element is cached. -/
theorem mem_id_add_matches (c : MatchCache) (batch : List CachedMatch)
    (t : Int) (m : CachedMatch) (hm : m ∈ batch) :
    m.id ∈ (c.add_matches batch t).matches'.map (fun x => x.id) := by
  by_cases hc : m.id ∈ c.matches'.map (fun x => x.id)
  · have hperm := (List.mergeSort_perm
      (c.matches' ++ batch.filter
        (fun m => ! (c.matches'.map (fun m => m.id)).contains m.id))
      tsDescLe).map (fun x => x.id)
    rw [add_matches_matches]
    refine hperm.mem_iff.mpr ?_
    rw [List.map_append]
    exact List.mem_append_left _ hc
  · have hmem : m ∈ batch.filter
        (fun x => ! (c.matches'.map (fun m => m.id)).contains x.id) := by
      rw [List.mem_filter]
      exact ⟨hm, by simpa using hc⟩
    rw [add_matches_matches]
    apply List.mem_map_of_mem (fun x : CachedMatch => x.id)
    rw [List.mem_mergeSort]
    exact List.mem_append_right _ hmem

/-- C6: merging the same batch twice produces the same final match list
as merging it once. -/
theorem add_matches_idempotent (c : MatchCache) (batch : List CachedMatch)
    (t1 t2 : Int) :
    ((c.add_matches batch t1).add_matches batch t2).matches'
      = (c.add_matches batch t1).matches' := by
  rw [add_matches_matches (c.add_matches batch t1) batch t2]
  have hfilter : batch.filter
      (fun m => ! ((c.add_matches batch t1).matches'.map
        (fun m => m.id)).contains m.id) = [] := by
    rw [List.filter_eq_nil_iff]
    intro m hm
    have hid := mem_id_add_matches c batch t1 m hm
    simpa using hid
  rw [hfilter, List.append_nil]
  exact List.mergeSort_of_sorted (add_matches_sorted_bool c batch t1)

/-- C7 (amended): after any `add_matches` call on a cache with unique
match ids, provided the incoming batch's ids are themselves unique, the
match list is sorted descending by timestamp, its ids remain unique, every
previously cached match record is still present unchanged, and any result
record whose id was already cached is the cached record (an incoming
duplicate is discarded, never overwrites). -/
theorem add_matches_invariants (c : MatchCache) (batch : List CachedMatch)
    (now : Int)
    (hc : (c.matches'.map (fun m => m.id)).Nodup)
    (hb : (batch.map (fun m => m.id)).Nodup) :
    (c.add_matches batch now).matches'.Pairwise
      (fun a b => b.timestamp ≤ a.timestamp) ∧
    ((c.add_matches batch now).matches'.map (fun m => m.id)).Nodup ∧
    (∀ m ∈ c.matches', m ∈ (c.add_matches batch now).matches') ∧
    (∀ m ∈ (c.add_matches batch now).matches',
      m.id ∈ c.matches'.map (fun x => x.id) → m ∈ c.matches') := by
  refine ⟨?_, ?_, ?_, ?_⟩
  · exact (add_matches_sorted_bool c batch now).imp
      (fun h => by simpa [tsDescLe] using h)
  · have hperm := (List.mergeSort_perm
      (c.matches' ++ batch.filter
        (fun m => ! (c.matches'.map (fun m => m.id)).contains m.id))
      tsDescLe).map (fun x : CachedMatch => x.id)
    rw [add_matches_matches]
    refine hperm.nodup_iff.mpr ?_
    rw [List.map_append, List.nodup_append]
    refine ⟨hc, ?_, ?_⟩
    · exact hb.sublist ((List.filter_sublist batch).map _)
    · intro x hx hxf
      obtain ⟨m, hmf, hmid⟩ := List.mem_map.mp hxf
      have hpred := (List.mem_filter.mp hmf).2
      simp only [Bool.not_eq_true'] at hpred
      rw [hmid] at hpred
      have hx2 : x ∈ c.matches'.map (fun m => m.id) := hx
      simp at hpred
      obtain ⟨m2, hm2, hid2⟩ := List.mem_map.mp hx2
      exact hpred m2 hm2 hid2
  · intro m hm
    rw [add_matches_matches, List.mem_mergeSort]
    exact List.mem_append_left _ hm
  · intro m hm hid
    rw [add_matches_matches, List.mem_mergeSort] at hm
    rcases List.mem_append.mp hm with h | h
    · exact h
    · exfalso
      have hpred := (List.mem_filter.mp h).2
      simp only [Bool.not_eq_true'] at hpred
      simp at hpred
      obtain ⟨m2, hm2, hid2⟩ := List.mem_map.mp hid
      exact hpred m2 hm2 hid2

/-- A batch whose two elements share one match id. -/
def dupIdBatch : List CachedMatch :=
  [{ id := "M1", champion := "Ahri", won := true, enemies := [], timestamp := 2 },
   { id := "M1", champion := "Zed", won := false, enemies := [], timestamp := 1 }]

/-- C7 counterexample: merging a batch that internally repeats a match id
into an empty cache (whose ids are trivially unique) leaves the cache with
duplicate ids, because the set-membership check is computed once against
the pre-call cache and never against the batch itself. -/
theorem add_matches_duplicate_batch_breaks_uniqueness :
    ¬ ((MatchCache.matches'
        ((MatchCache.new "Faker#KR1" "na1" 0).add_matches dupIdBatch 0)).map
        (fun m => m.id)).Nodup := by
  have hsorted : dupIdBatch.Pairwise (fun a b => tsDescLe a b = true) := by
    decide
  have heq : MatchCache.matches'
      ((MatchCache.new "Faker#KR1" "na1" 0).add_matches dupIdBatch 0)
      = List.mergeSort dupIdBatch tsDescLe := by
    rw [add_matches_matches]
    exact congrArg (fun l => List.mergeSort l tsDescLe) (by decide)
  rw [heq, List.mergeSort_of_sorted hsorted]
  decide

/-- A concrete one-match cache for the C7 witness. -/
def witnessCache : MatchCache :=
  { player := "Faker#KR1", region := "na1", last_updated := 0,
    matches' := [{ id := "M1", champion := "Ahri", won := true,
                   enemies := ["Zed"], timestamp := 5 }],
    account := none }

/-- A concrete batch (one fresh match, one duplicate of the cached id
with different payload) for the C7 witness. -/
def witnessBatch : List CachedMatch :=
  [{ id := "M2", champion := "Lux", won := false, enemies := [], timestamp := 7 },
   { id := "M1", champion := "Sett", won := true, enemies := [], timestamp := 9 }]

/-- C7 witness: the amended invariants at a concrete cache and batch. -/
theorem add_matches_invariants_witness :
    (witnessCache.add_matches witnessBatch 10).matches'.Pairwise
      (fun a b => b.timestamp ≤ a.timestamp) ∧
    ((witnessCache.add_matches witnessBatch 10).matches'.map
      (fun m => m.id)).Nodup :=
  ⟨(add_matches_invariants witnessCache witnessBatch 10
      (by decide) (by decide)).1,
   (add_matches_invariants witnessCache witnessBatch 10
      (by decide) (by decide)).2.1⟩

/-- Helper: the score comparator is transitive. -/
theorem scoreDescLe_trans : ∀ a b c : BanRecommendation,
    scoreDescLe a b = true → scoreDescLe b c = true → scoreDescLe a c = true := by
  intro a b c hab hbc
  simp only [scoreDescLe, decide_eq_true_eq] at hab hbc ⊢
  exact le_trans hbc hab

/-- Helper: the score comparator is total. -/
theorem scoreDescLe_total : ∀ a b : BanRecommendation,
    scoreDescLe a b || scoreDescLe b a := by
  intro a b
  simp only [scoreDescLe, Bool.or_eq_true, decide_eq_true_eq]
  exact le_total b.score a.score

/-- Helper: the recommendation list produced by `get_recommendations`,
spelled out. -/
theorem get_recommendations_eq (stats : List ChampionStats)
    (total_games top_n : Nat) :
    BanRecommender.get_recommendations stats total_games top_n
      = (List.mergeSort
          (stats.map (BanRecommender.mkRecommendation total_games
            (maxRecencyOf stats)))
          scoreDescLe).take top_n := rfl

/-- C9: `get_recommendations` returns `min top_n stats.length`
recommendations (so `top_n = 0` gives the empty list, empty stats give
the empty list rather than an error or a sentinel-scored result, and
`top_n ≥ stats.length` gives a permutation of all of them), every
returned entry is one of the stats scored against the batch-maximum
recency, the output is sorted descending by score, and the underlying
stable sort keeps any score-tied entries in their original order (every
already-descending sublist of the scored input survives as a sublist of
the sorted output). -/
theorem get_recommendations_spec (stats : List ChampionStats)
    (total_games top_n : Nat) :
    (BanRecommender.get_recommendations stats total_games top_n).length
      = min top_n stats.length ∧
    (BanRecommender.get_recommendations stats total_games top_n).Pairwise
      (fun a b => b.score ≤ a.score) ∧
    (∀ r ∈ BanRecommender.get_recommendations stats total_games top_n,
      r ∈ stats.map
        (BanRecommender.mkRecommendation total_games (maxRecencyOf stats))) ∧
    (stats = [] →
      BanRecommender.get_recommendations stats total_games top_n = []) ∧
    (top_n = 0 →
      BanRecommender.get_recommendations stats total_games top_n = []) ∧
    (stats.length ≤ top_n →
      List.Perm (BanRecommender.get_recommendations stats total_games top_n)
        (stats.map
          (BanRecommender.mkRecommendation total_games (maxRecencyOf stats)))) ∧
    (∀ sub : List BanRecommendation,
      List.Sublist sub (stats.map
        (BanRecommender.mkRecommendation total_games (maxRecencyOf stats))) →
      sub.Pairwise (fun a b => b.score ≤ a.score) →
      List.Sublist sub (List.mergeSort
        (stats.map (BanRecommender.mkRecommendation total_games
          (maxRecencyOf stats)))
        scoreDescLe)) := by
  refine ⟨?_, ?_, ?_, ?_, ?_, ?_, ?_⟩
  · rw [get_recommendations_eq, List.length_take, List.length_mergeSort,
      List.length_map]
  · rw [get_recommendations_eq]
    have hs := List.sorted_mergeSort scoreDescLe_trans scoreDescLe_total
      (stats.map (BanRecommender.mkRecommendation total_games
        (maxRecencyOf stats)))
    exact (hs.sublist (List.take_sublist _ _)).imp
      (fun h => by simpa [scoreDescLe] using h)
  · intro r hr
    rw [get_recommendations_eq] at hr
    have := List.mem_of_mem_take hr
    rwa [List.mem_mergeSort] at this
  · intro h
    rw [get_recommendations_eq, h]
    simp
  · intro h
    rw [get_recommendations_eq, h]
    simp
  · intro h
    rw [get_recommendations_eq, List.take_of_length_le
      (by rw [List.length_mergeSort, List.length_map]; exact h)]
    exact List.mergeSort_perm _ _
  · intro sub hsub hpair
    exact List.sublist_mergeSort scoreDescLe_trans scoreDescLe_total
      (hpair.imp (fun h => by simpa [scoreDescLe] using h)) hsub

/-- A concrete stat list for the C9 witness. -/
def exampleStats : List ChampionStats :=
  [{ name := "Ahri", times_faced := 5, wins_against := 1, recency_score := 4/5 },
   { name := "Zed", times_faced := 3, wins_against := 3, recency_score := 1/2 },
   { name := "Lux", times_faced := 2, wins_against := 0, recency_score := 1/10 }]

/-- C9 witness: the statement at a concrete stat list (and the empty-stat
case discharged at the empty list). -/
theorem get_recommendations_spec_witness :
    (BanRecommender.get_recommendations exampleStats 10 2).length
      = min 2 exampleStats.length ∧
    BanRecommender.get_recommendations ([] : List ChampionStats) 10 3 = [] :=
  ⟨(get_recommendations_spec exampleStats 10 2).1,
   (get_recommendations_spec [] 10 3).2.2.2.1 rfl⟩
